import Mathlib

/-!
Verification development for the papersnap repository.

This file gives a shallow embedding of the document verification and
field-resolution logic of the repository (the API controller
`verifyDocument` and `getDocumentOcr`, the OCR delegation client
`requestOcrAnalysis`, and the mobile client helpers `resolveFieldValue`
and `handleSave`), together with theorems settling the frozen claims
about that logic.

JavaScript values are embedded as an inductive `JsVal`; JavaScript
numbers as `JsNum` (NaN or an exact rational — the numbers handled by
this code are small integers and short decimal strings, for which IEEE
doubles are exact).  JSON objects are embedded as association lists of
key/value pairs; object spread is `mergeObj`.  Database rows are plain
structures; a nullable JSONB column is an `Option JsVal` where `none`
is a SQL NULL and `some JsVal.null` an explicit JSON null.
-/

namespace PaperSnap

/-- A JavaScript number: NaN, or an exact rational value. -/
inductive JsNum where
  | nan : JsNum
  | val : ℚ → JsNum
deriving DecidableEq

/-- A JavaScript/JSON value as handled by the embedded code. -/
inductive JsVal where
  | str : String → JsVal
  | num : JsNum → JsVal
  | bool : Bool → JsVal
  | null : JsVal
  | obj : List (String × JsVal) → JsVal

/-- First-match lookup in an association list (JS property access). -/
def lookupField : List (String × JsVal) → String → Option JsVal
  | [], _ => none
  | (k, v) :: rest, key => if k = key then some v else lookupField rest key

/-- JS object spread `\x7b...old, ...upd\x7d`: keys of `upd` overwrite keys of
`old`, keys only in `old` are kept. -/
def mergeObj (old upd : List (String × JsVal)) : List (String × JsVal) :=
  old.filter (fun p => (lookupField upd p.1).isNone) ++ upd

/-- Characters stripped by JavaScript string-to-number coercion and `trim`. -/
def jsWhitespace (c : Char) : Bool :=
  c = ' ' || c = '\t' || c = '\n' || c = '\r'

/-- Strip leading and trailing whitespace (JS `StringToNumber` trimming). -/
def jsTrim (s : String) : List Char :=
  ((s.toList.dropWhile jsWhitespace).reverse.dropWhile jsWhitespace).reverse

/-- Numeric value of a list of decimal digit characters. -/
def digitsToNat (cs : List Char) : Nat :=
  cs.foldl (fun acc c => acc * 10 + (c.toNat - 48)) 0

/-- Parse an unsigned decimal literal (digits with an optional fraction
part), the number grammar exercised by this repository.  Exponents and
hex literals never occur in its inputs and are out of scope. -/
def parseUnsignedDec (cs : List Char) : Option ℚ :=
  match cs.splitOn '.' with
  | [w] =>
      if w ≠ [] ∧ w.all Char.isDigit then some (digitsToNat w : ℚ) else none
  | [w, f] =>
      if (w ≠ [] ∨ f ≠ []) ∧ w.all Char.isDigit ∧ f.all Char.isDigit then
        some ((digitsToNat w : ℚ) + (digitsToNat f : ℚ) / ((10 : ℚ) ^ f.length))
      else none
  | _ => none

/-- JavaScript `Number(s)` on a string: trim whitespace; empty after the
trim is 0; otherwise an optionally signed decimal literal; anything else
is NaN. -/
def jsStringToNum (s : String) : JsNum :=
  match jsTrim s with
  | [] => .val 0
  | '+' :: rest =>
      match parseUnsignedDec rest with
      | some q => .val q
      | none => .nan
  | '-' :: rest =>
      match parseUnsignedDec rest with
      | some q => .val (-q)
      | none => .nan
  | cs =>
      match parseUnsignedDec cs with
      | some q => .val q
      | none => .nan

/-- JavaScript `Number.isInteger`. -/
def JsNum.isInteger : JsNum → Bool
  | .nan => false
  | .val q => q.den = 1

/-- JavaScript `Math.round`: round to the nearest integer, halves toward
positive infinity. -/
def jsRound (q : ℚ) : Int := ⌊q + (1 : ℚ) / 2⌋

/-- Number of days in a month of the proleptic Gregorian calendar. -/
def daysInMonth (year month : Nat) : Nat :=
  if month = 2 then
    if year % 4 = 0 ∧ (year % 100 ≠ 0 ∨ year % 400 = 0) then 29 else 28
  else if month = 4 ∨ month = 6 ∨ month = 9 ∨ month = 11 then 30
  else 31

/-- Validity of a calendar date string, modelling
`!Number.isNaN(new Date(s).getTime())` for the ISO `YYYY-MM-DD` strings
this application submits (the mobile client prompts for exactly that
format).  Engine-specific lenient date formats are out of scope; no
claim depends on the date grammar itself. -/
def isValidIsoDate (s : String) : Bool :=
  match s.splitOn "-" with
  | [y, m, d] =>
      let yc := y.toList
      let mc := m.toList
      let dc := d.toList
      yc.length == 4 && mc.length == 2 && dc.length == 2 &&
      yc.all Char.isDigit && mc.all Char.isDigit && dc.all Char.isDigit &&
      (let mn := digitsToNat mc
       let dn := digitsToNat dc
       decide (1 ≤ mn) && decide (mn ≤ 12) && decide (1 ≤ dn) &&
       decide (dn ≤ daysInMonth (digitsToNat yc) mn))
  | _ => false

/-- `OcrStatus` enum of the Prisma schema. -/
inductive OcrStatus where
  | PENDING
  | COMPLETED
  | FAILED
deriving DecidableEq

/-- A `Case` row.  `surgeryDate` holds the date value the controller
constructs with `new Date` from the validated ISO string; it is
represented by that string. -/
structure Case where
  id : String
  userId : String
  surgeryDate : Option String := none
  patientAge : Option Int := none
  patientSex : Option String := none
  diagnosis : Option String := none
  procedure : Option String := none
  surgeon : Option String := none
  emergencyFlag : Bool := false

/-- A `Document` row.  Nullable JSONB columns are `Option JsVal`:
`none` is a SQL NULL, `some JsVal.null` an explicit JSON null. -/
structure Document where
  id : String
  caseId : String
  ocrStatus : OcrStatus := .PENDING
  rawText : Option String := none
  schemaType : Option String := none
  parsedFields : Option JsVal := none
  ocrMeta : Option JsVal := none
  verifiedFields : Option JsVal := none
  isVerified : Bool := false

/-- The document together with its owning case, as loaded by
`prisma.document.findUnique(\x7b include: \x7b case: true \x7d \x7d)`. -/
structure St where
  doc : Document
  cas : Case

/-- The seven recognized verification fields, in the order the
controller checks them. -/
inductive VField where
  | surgeryDate
  | patientAge
  | patientSex
  | diagnosis
  | procedure
  | surgeon
  | emergencyFlag
deriving DecidableEq

/-- All recognized fields, in controller order. -/
def VField.all : List VField :=
  [.surgeryDate, .patientAge, .patientSex, .diagnosis, .procedure, .surgeon, .emergencyFlag]

/-- The JSON key of a recognized field. -/
def VField.name : VField → String
  | .surgeryDate => "surgeryDate"
  | .patientAge => "patientAge"
  | .patientSex => "patientSex"
  | .diagnosis => "diagnosis"
  | .procedure => "procedure"
  | .surgeon => "surgeon"
  | .emergencyFlag => "emergencyFlag"

/-- The request body of `PATCH /documents/:id/verify`.  The controller
reads exactly these seven properties of `req.body`; a property absent
from the body (`undefined` in JS) is `none`. -/
structure VerifyBody where
  surgeryDate : Option JsVal := none
  patientAge : Option JsVal := none
  patientSex : Option JsVal := none
  diagnosis : Option JsVal := none
  procedure : Option JsVal := none
  surgeon : Option JsVal := none
  emergencyFlag : Option JsVal := none

/-- Property access `body.‹field›`. -/
def bodyGet (body : VerifyBody) : VField → Option JsVal
  | .surgeryDate => body.surgeryDate
  | .patientAge => body.patientAge
  | .patientSex => body.patientSex
  | .diagnosis => body.diagnosis
  | .procedure => body.procedure
  | .surgeon => body.surgeon
  | .emergencyFlag => body.emergencyFlag

/-- Per-field validation of the controller, returning the value stored
into `verifiedUpdates` on success and the `res.status(400)` message on
failure.

* `surgeryDate`: must be a string parsing as a valid date; the original
  string is stored.
* `patientAge`: a string is first coerced with `Number(...)`; the result
  must satisfy `Number.isInteger` and be nonnegative (`Number.isInteger`
  is false on every non-number value, including NaN); the number is
  stored.
* `patientSex`, `diagnosis`, `procedure`, `surgeon`: any string.
* `emergencyFlag`: any boolean. -/
def checkField : VField → JsVal → Except String JsVal
  | .surgeryDate, .str s =>
      if isValidIsoDate s then .ok (.str s)
      else .error "surgeryDate must be a valid date string"
  | .surgeryDate, _ => .error "surgeryDate must be a string"
  | .patientAge, v =>
      let age : JsNum :=
        match v with
        | .str s => jsStringToNum s
        | .num n => n
        | _ => .nan
      match age with
      | .val q =>
          if q.den = 1 ∧ 0 ≤ q then .ok (.num (.val q))
          else .error "patientAge must be a non-negative integer"
      | .nan => .error "patientAge must be a non-negative integer"
  | .patientSex, .str s => .ok (.str s)
  | .patientSex, _ => .error "patientSex must be a string"
  | .diagnosis, .str s => .ok (.str s)
  | .diagnosis, _ => .error "diagnosis must be a string"
  | .procedure, .str s => .ok (.str s)
  | .procedure, _ => .error "procedure must be a string"
  | .surgeon, .str s => .ok (.str s)
  | .surgeon, _ => .error "surgeon must be a string"
  | .emergencyFlag, .bool b => .ok (.bool b)
  | .emergencyFlag, _ => .error "emergencyFlag must be a boolean"

/-- The `caseUpdates` record accumulated by the controller: one
optional column per recognized field. -/
structure CaseUpdates where
  surgeryDate : Option String := none
  patientAge : Option Int := none
  patientSex : Option String := none
  diagnosis : Option String := none
  procedure : Option String := none
  surgeon : Option String := none
  emergencyFlag : Option Bool := none

/-- `Object.keys(caseUpdates).length > 0`. -/
def CaseUpdates.nonEmpty (u : CaseUpdates) : Bool :=
  u.surgeryDate.isSome || u.patientAge.isSome || u.patientSex.isSome ||
  u.diagnosis.isSome || u.procedure.isSome || u.surgeon.isSome ||
  u.emergencyFlag.isSome

/-- Record the case-column value of one validated field:
`surgeryDate` stores the `Date` built from the string, `patientAge`
the integer, the rest the scalar unchanged.  The catch-all is
unreachable for values produced by `checkField`. -/
def setCaseField (u : CaseUpdates) : VField → JsVal → CaseUpdates
  | .surgeryDate, .str s => { u with surgeryDate := some s }
  | .patientAge, .num (.val q) => { u with patientAge := some q.num }
  | .patientSex, .str s => { u with patientSex := some s }
  | .diagnosis, .str s => { u with diagnosis := some s }
  | .procedure, .str s => { u with procedure := some s }
  | .surgeon, .str s => { u with surgeon := some s }
  | .emergencyFlag, .bool b => { u with emergencyFlag := some b }
  | _, _ => u

/-- The sequential field-validation block of `verifyDocument`: walk the
recognized fields in controller order; a field absent from the body is
skipped; the first validation failure aborts with its message; a
validated field is appended to `verifiedUpdates` and recorded in
`caseUpdates`. -/
def buildUpdatesAux (body : VerifyBody) :
    List VField → List (String × JsVal) → CaseUpdates →
    Except String (List (String × JsVal) × CaseUpdates)
  | [], vu, cu => .ok (vu, cu)
  | f :: fs, vu, cu =>
      match bodyGet body f with
      | none => buildUpdatesAux body fs vu cu
      | some v =>
          match checkField f v with
          | .error msg => .error msg
          | .ok w => buildUpdatesAux body fs (vu ++ [(f.name, w)]) (setCaseField cu f w)

/-- `verifiedUpdates` and `caseUpdates` as accumulated over all seven
field checks, or the first 400 message. -/
def buildUpdates (body : VerifyBody) :
    Except String (List (String × JsVal) × CaseUpdates) :=
  buildUpdatesAux body VField.all [] {}

/-- `prisma.case.update(\x7b data: caseUpdates \x7d)`: columns present in the
update record are overwritten, the rest keep their values. -/
def applyCaseUpdates (c : Case) (u : CaseUpdates) : Case :=
  { c with
    surgeryDate := match u.surgeryDate with | some s => some s | none => c.surgeryDate
    patientAge := match u.patientAge with | some n => some n | none => c.patientAge
    patientSex := match u.patientSex with | some s => some s | none => c.patientSex
    diagnosis := match u.diagnosis with | some s => some s | none => c.diagnosis
    procedure := match u.procedure with | some s => some s | none => c.procedure
    surgeon := match u.surgeon with | some s => some s | none => c.surgeon
    emergencyFlag := match u.emergencyFlag with | some b => b | none => c.emergencyFlag }

/-- `(document.verifiedFields ?? \x7b\x7d)`: a NULL column (or a JSON null,
which the Prisma client also reads back as `null`) becomes the empty
object.  The column is written only by `verifyDocument`, always with an
object, so the non-object scalar cases never occur. -/
def existingVerified (d : Document) : List (String × JsVal) :=
  match d.verifiedFields with
  | some (.obj l) => l
  | _ => []

/-- One persistence write issued by `verifyDocument`. -/
inductive DbWrite where
  | docUpdate (docId : String) (newVerifiedFields : JsVal) (newIsVerified : Bool)
  | caseUpdate (caseId : String) (upd : CaseUpdates)

/-- Apply one persistence write to the state. -/
def applyWrite (st : St) (w : DbWrite) : St :=
  match w with
  | .docUpdate _ vf iv =>
      { st with doc := { st.doc with verifiedFields := some vf, isVerified := iv } }
  | .caseUpdate _ u => { st with cas := applyCaseUpdates st.cas u }

/-- Apply a list of persistence writes in order. -/
def applyWrites (st : St) (ws : List DbWrite) : St :=
  ws.foldl applyWrite st

/-- Outcome of the verify operation: either the new state together with
the list of persistence writes that produced it, or an HTTP error
response issued before any write. -/
inductive VerifyOutcome where
  | ok (newState : St) (writes : List DbWrite)
  | err (status : Nat) (message : String)

/-- The persistence writes of an outcome; an error response performs
none. -/
def VerifyOutcome.writes : VerifyOutcome → List DbWrite
  | .ok _ ws => ws
  | .err _ _ => []

/-- The persistence writes of an accepting `verifyDocument` run: the
document write (`verifiedFields` merged, `isVerified: true`) first,
followed by the case write when the case-update record is nonempty. -/
def verifyWrites (st : St) (verifiedUpdates : List (String × JsVal))
    (caseUpdates : CaseUpdates) : List DbWrite :=
  DbWrite.docUpdate st.doc.id
      (.obj (mergeObj (existingVerified st.doc) verifiedUpdates)) true ::
    (if caseUpdates.nonEmpty then [DbWrite.caseUpdate st.cas.id caseUpdates] else [])

/-- Shallow embedding of `verifyDocument` (PATCH /documents/:id/verify)
for an authenticated requester and an existing document loaded with its
case.  (The 401 guard for a missing `req.user` and the 404 guard for an
absent document both return before touching any state and are outside
the quantified claims, which speak of an authenticated requester and an
existing document.)

Flow, as in the controller: refuse 403 unless the requester owns the
case; validate each present field in order, refusing 400 with the
field-specific message on the first failure; refuse 400 when no
recognized field was provided; otherwise shallow-merge the validated
updates over the existing verified-fields object and issue the writes
of `verifyWrites`. -/
def verifyDocument (requesterId : String) (st : St) (body : VerifyBody) :
    VerifyOutcome :=
  if st.cas.userId ≠ requesterId then
    .err 403 "Forbidden"
  else
    match buildUpdates body with
    | .error msg => .err 400 msg
    | .ok (verifiedUpdates, caseUpdates) =>
        if verifiedUpdates.isEmpty then
          .err 400 "No valid fields provided for verification"
        else
          .ok (applyWrites st (verifyWrites st verifiedUpdates caseUpdates))
            (verifyWrites st verifiedUpdates caseUpdates)

/-- The OCR worker response body (`OcrWorkerResponse`).  Each field is
`Option (Option _)`: the outer layer distinguishes a property absent
from the response (`none`) from one present (`some`); the inner layer
distinguishes an explicit JSON `null` (`none`) from a value. -/
structure OcrWorkerResponse where
  rawText : Option (Option String) := none
  schemaType : Option (Option String) := none
  parsedFields : Option (Option (List (String × JsVal))) := none
  ocrMeta : Option (Option (List (String × JsVal))) := none

/-- How one attempt at the OCR worker call ends: the upload file is
unreachable (no network call is made), the network call or the parse of
its result throws, or the call succeeds with a response body. -/
inductive OcrCallResult where
  | fileUnreachable
  | networkError
  | success (resp : OcrWorkerResponse)

/-- Shallow embedding of `requestOcrAnalysis`, as the document update it
persists.  On an unreachable file or a failed call, `markFailed` writes
only `ocrStatus: FAILED`.  On success the update always writes
`ocrStatus: COMPLETED`, `rawText: data.rawText ?? null` and
`schemaType: data.schemaType ?? null` (so an absent or null `rawText` or
`schemaType` overwrites the column with null), while `parsedFields` and
`ocrMeta` are added to the update only when present in the response,
with an explicit null mapped to `Prisma.JsonNull`. -/
def requestOcrAnalysis (d : Document) (call : OcrCallResult) : Document :=
  match call with
  | .fileUnreachable => { d with ocrStatus := .FAILED }
  | .networkError => { d with ocrStatus := .FAILED }
  | .success resp =>
      { d with
        ocrStatus := .COMPLETED
        rawText := resp.rawText.join
        schemaType := resp.schemaType.join
        parsedFields :=
          match resp.parsedFields with
          | none => d.parsedFields
          | some none => some .null
          | some (some l) => some (.obj l)
        ocrMeta :=
          match resp.ocrMeta with
          | none => d.ocrMeta
          | some none => some .null
          | some (some l) => some (.obj l) }

/-- The response body of `GET /documents/:id/ocr`. -/
structure OcrViewResponse where
  id : String
  ocrStatus : OcrStatus
  rawText : Option String
  parsedFields : Option JsVal
  verifiedFields : Option JsVal
  isVerified : Bool

/-- Outcome of the read endpoint. -/
inductive GetOcrOutcome where
  | ok (resp : OcrViewResponse)
  | err (status : Nat) (message : String)

/-- Shallow embedding of `getDocumentOcr` (GET /documents/:id/ocr) for
an authenticated requester and an existing document loaded with its
case: refuse 403 unless the requester owns the case, else answer with
exactly the six projected document columns. -/
def getDocumentOcr (requesterId : String) (st : St) : GetOcrOutcome :=
  if st.cas.userId ≠ requesterId then
    .err 403 "Forbidden"
  else
    .ok { id := st.doc.id
          ocrStatus := st.doc.ocrStatus
          rawText := st.doc.rawText
          parsedFields := st.doc.parsedFields
          verifiedFields := st.doc.verifiedFields
          isVerified := st.doc.isVerified }

/-- Fallback half of the mobile `resolveFieldValue`: the parsed-fields
candidate.  An absent mapping or key gives `parsedCandidate = undefined`
and `undefined ?? ""` is the empty string; an object candidate holding a
`value` key is unwrapped; a null candidate falls to `null ?? ""`; any
other candidate is returned as is (an object without a `value` key is
truthy, fails the unwrap guard, and survives `?? ""`). -/
def resolveParsed (key : String) (parsed : Option (List (String × JsVal))) : JsVal :=
  match parsed with
  | none => .str ""
  | some pf =>
      match lookupField pf key with
      | none => .str ""
      | some (.obj l) =>
          match lookupField l "value" with
          | some w => w
          | none => .obj l
      | some .null => .str ""
      | some v => v

/-- Shallow embedding of the mobile `resolveFieldValue`: prefer the
verified-fields value when the mapping is present and holds a
non-null value for the key; otherwise resolve from parsed fields. -/
def resolveFieldValue (key : String) (verified parsed : Option (List (String × JsVal))) :
    JsVal :=
  match verified with
  | some vf =>
      match lookupField vf key with
      | some .null => resolveParsed key parsed
      | some v => v
      | none => resolveParsed key parsed
  | none => resolveParsed key parsed

/-- The review-screen state read by the mobile `handleSave`. -/
structure ReviewForm where
  ocrStatus : OcrStatus
  surgeryDate : String := ""
  patientAge : String := ""
  patientSex : String := ""
  diagnosis : String := ""
  procedure : String := ""
  surgeon : String := ""
  emergencyFlag : Option Bool := none
  initialEmergencyFlag : Option Bool := none
  emergencyFlagTouched : Bool := false

/-- What the mobile `handleSave` does: refuse before any request
(alerts), or issue the PATCH request with the built payload. -/
inductive SaveAction where
  | blockedOcrPending
  | invalidAge
  | noFields
  | request (payload : VerifyBody)

/-- The `patientAge` part of the payload built by `handleSave`: an
empty trimmed input adds nothing; otherwise `Number(trimmed)` must be
finite and nonnegative, and `Math.round` of it is sent. -/
def agePayload (s : String) : Except Unit (Option JsVal) :=
  let t := s.trim
  if t = "" then .ok none
  else
    match jsStringToNum t with
    | .nan => .error ()
    | .val q =>
        if q < 0 then .error ()
        else .ok (some (.num (.val ((jsRound q : Int) : ℚ))))

/-- Whether the built payload has no keys. -/
def bodyIsEmpty (b : VerifyBody) : Bool :=
  b.surgeryDate.isNone && b.patientAge.isNone && b.patientSex.isNone &&
  b.diagnosis.isNone && b.procedure.isNone && b.surgeon.isNone &&
  b.emergencyFlag.isNone

/-- Shallow embedding of the mobile `handleSave`: refuse when OCR is
not COMPLETED; refuse on an invalid age input; include each nonempty
trimmed text field; include `emergencyFlag` when the switch was touched
or an initial boolean value existed; refuse when the payload stayed
empty; otherwise issue the PATCH request. -/
def handleSave (form : ReviewForm) : SaveAction :=
  if form.ocrStatus ≠ .COMPLETED then .blockedOcrPending
  else
    match agePayload form.patientAge with
    | .error () => .invalidAge
    | .ok ageVal =>
        let payload : VerifyBody :=
          { surgeryDate :=
              if form.surgeryDate.trim ≠ "" then some (.str form.surgeryDate.trim) else none
            patientAge := ageVal
            patientSex :=
              if form.patientSex.trim ≠ "" then some (.str form.patientSex.trim) else none
            diagnosis :=
              if form.diagnosis.trim ≠ "" then some (.str form.diagnosis.trim) else none
            procedure :=
              if form.procedure.trim ≠ "" then some (.str form.procedure.trim) else none
            surgeon :=
              if form.surgeon.trim ≠ "" then some (.str form.surgeon.trim) else none
            emergencyFlag :=
              if form.emergencyFlagTouched || form.initialEmergencyFlag.isSome then
                some (.bool (form.emergencyFlag.getD false))
              else none }
        if bodyIsEmpty payload then .noFields else .request payload

/-- A document freshly created by `uploadDocument`:
`prisma.document.create` passes `ocrStatus: PENDING` explicitly.
Modelled from the spec: the remaining column defaults (`isVerified`
false, nullable columns NULL) come from the Prisma schema file, which
is not among the sources; the spec data model states them (`isVerified`
boolean, default false, verified-fields mapping starts empty). -/
def freshDocument (id caseId : String) : Document :=
  { id := id, caseId := caseId, ocrStatus := .PENDING, rawText := none,
    schemaType := none, parsedFields := none, ocrMeta := none,
    verifiedFields := none, isVerified := false }

/-- An operation of a document lifecycle: the single OCR analysis
attempt, or one verify call (with the requester identity and the owning
case row it runs against). -/
inductive DocOp where
  | ocr (call : OcrCallResult)
  | verify (requesterId : String) (cas : Case) (body : VerifyBody)

/-- Effect of one lifecycle operation on the document row: an OCR
attempt persists its update; a verify call updates the document when it
succeeds and leaves it untouched when it is refused. -/
def applyDocOp (d : Document) (op : DocOp) : Document :=
  match op with
  | .ocr call => requestOcrAnalysis d call
  | .verify requesterId cas body =>
      match verifyDocument requesterId { doc := d, cas := cas } body with
      | .ok st' _ => st'.doc
      | .err _ _ => d

/-- Number of OCR attempts in an operation list. -/
def countOcr (ops : List DocOp) : Nat :=
  ops.countP (fun op => match op with | .ocr _ => true | _ => false)

/-- The successive `ocrStatus` values of a document along a list of
operations (including the initial one). -/
def statusTrace (d : Document) (ops : List DocOp) : List OcrStatus :=
  (List.scanl applyDocOp d ops).map Document.ocrStatus

/-- An allowed adjacent status step: unchanged, or PENDING resolving to
COMPLETED or FAILED. -/
def okStep (a b : OcrStatus) : Prop :=
  b = a ∨ (a = .PENDING ∧ (b = .COMPLETED ∨ b = .FAILED))

/-- All adjacent steps of a status list are allowed. -/
def stepsOk : List OcrStatus → Prop
  | [] => True
  | [_] => True
  | a :: b :: rest => okStep a b ∧ stepsOk (b :: rest)

/-- Lookup of a verified-fields mapping that may be absent. -/
def verifiedLookup (verified : Option (List (String × JsVal))) (key : String) :
    Option JsVal :=
  match verified with
  | some vf => lookupField vf key
  | none => none

/-- The inner value of a `\x7bvalue: X\x7d`-shaped wrapper, when the value is
an object containing a `value` key. -/
def unwrapValue : JsVal → Option JsVal
  | .obj l => lookupField l "value"
  | _ => none

/-- A sample owned case. -/
def sampleCase : Case := { id := "c1", userId := "u1" }

/-- A sample OCR-completed document of the sample case. -/
def sampleDoc : Document := { id := "d1", caseId := "c1", ocrStatus := .COMPLETED }

/-- Sample request state: the sample document joined with its case. -/
def sampleSt : St := { doc := sampleDoc, cas := sampleCase }

/-- Sample state whose document is still OCR-PENDING. -/
def pendingSt : St :=
  { doc := { sampleDoc with ocrStatus := .PENDING }, cas := sampleCase }

/-- The submission setting only the diagnosis to the string A. -/
def bodyDiagA : VerifyBody := { diagnosis := some (.str "A") }

/-- The submission setting only the surgeon to the string B. -/
def bodySurgB : VerifyBody := { surgeon := some (.str "B") }

/-- The validated update and case-update records of the sample
diagnosis submission. -/
def sampleU : List (String × JsVal) := [("diagnosis", .str "A")]

/-- The case-update record of the sample diagnosis submission. -/
def sampleCu : CaseUpdates := { diagnosis := some "A" }

/-- The writes of verifying the sample diagnosis submission. -/
def sampleWs : List DbWrite := verifyWrites sampleSt sampleU sampleCu

/-- The state after verifying the sample diagnosis submission. -/
def sampleSt' : St := applyWrites sampleSt sampleWs

lemma lookupField_append (A B : List (String × JsVal)) (k : String) :
    lookupField (A ++ B) k =
      match lookupField A k with
      | some v => some v
      | none => lookupField B k := by
  induction A with
  | nil => simp [lookupField]
  | cons p rest ih =>
      obtain ⟨k', v⟩ := p
      by_cases h : k' = k <;> simp [lookupField, h, ih]

lemma lookupField_filterNot (V U : List (String × JsVal)) (k : String) :
    lookupField (V.filter (fun p => (lookupField U p.1).isNone)) k =
      if (lookupField U k).isNone then lookupField V k else none := by
  induction V with
  | nil => simp [lookupField]
  | cons p rest ih =>
      obtain ⟨k', v⟩ := p
      by_cases h : k' = k
      · subst h
        cases hU : (lookupField U k').isNone <;>
          simp [lookupField, hU, List.filter_cons, ih]
      · cases hU : (lookupField U k').isNone <;>
          simp [lookupField, h, hU, List.filter_cons, ih]

/-- Lookup in the spread merge: keys of the update win, other keys keep
their old values. -/
lemma lookup_mergeObj (V U : List (String × JsVal)) (k : String) :
    lookupField (mergeObj V U) k =
      match lookupField U k with
      | some v => some v
      | none => lookupField V k := by
  unfold mergeObj
  rw [lookupField_append, lookupField_filterNot]
  cases h : lookupField U k with
  | some v => simp [h]
  | none =>
      simp only [h, Option.isNone_none, if_true]
      cases lookupField V k <;> rfl

/-- Every recognized field is in the controller-order list. -/
lemma VField.mem_all (f : VField) : f ∈ VField.all := by
  cases f <;> simp [VField.all]

lemma buildUpdatesAux_skip (body : VerifyBody) (f : VField) (fs : List VField)
    (vu : List (String × JsVal)) (cu : CaseUpdates) (hb : bodyGet body f = none) :
    buildUpdatesAux body (f :: fs) vu cu = buildUpdatesAux body fs vu cu := by
  simp only [buildUpdatesAux, hb]

lemma buildUpdatesAux_fail (body : VerifyBody) (f : VField) (fs : List VField)
    (vu : List (String × JsVal)) (cu : CaseUpdates) (v : JsVal) (msg : String)
    (hb : bodyGet body f = some v) (hc : checkField f v = .error msg) :
    buildUpdatesAux body (f :: fs) vu cu = .error msg := by
  simp only [buildUpdatesAux, hb, hc]

lemma buildUpdatesAux_step (body : VerifyBody) (f : VField) (fs : List VField)
    (vu : List (String × JsVal)) (cu : CaseUpdates) (v w : JsVal)
    (hb : bodyGet body f = some v) (hc : checkField f v = .ok w) :
    buildUpdatesAux body (f :: fs) vu cu =
      buildUpdatesAux body fs (vu ++ [(f.name, w)]) (setCaseField cu f w) := by
  simp only [buildUpdatesAux, hb, hc]

lemma buildUpdatesAux_ok_iff (body : VerifyBody) (fs : List VField)
    (vu : List (String × JsVal)) (cu : CaseUpdates) :
    (∃ r, buildUpdatesAux body fs vu cu = .ok r) ↔
      (∀ f ∈ fs, ∀ v, bodyGet body f = some v → ∃ w, checkField f v = .ok w) := by
  induction fs generalizing vu cu with
  | nil => simp [buildUpdatesAux]
  | cons f fs ih =>
      rw [List.forall_mem_cons]
      cases hb : bodyGet body f with
      | none =>
          rw [buildUpdatesAux_skip body f fs vu cu hb, ih]
          have hf : ∀ v, (none : Option JsVal) = some v → ∃ w, checkField f v = .ok w := by
            intro v hv; cases hv
          tauto
      | some v =>
          cases hc : checkField f v with
          | error msg =>
              rw [buildUpdatesAux_fail body f fs vu cu v msg hb hc]
              constructor
              · rintro ⟨r, hr⟩; cases hr
              · rintro ⟨h1, -⟩
                obtain ⟨w, hw⟩ := h1 v rfl
                rw [hc] at hw; cases hw
          | ok w =>
              rw [buildUpdatesAux_step body f fs vu cu v w hb hc, ih]
              have hf : ∀ v', some v = some v' → ∃ w', checkField f v' = .ok w' := by
                intro v' hv'
                cases hv'
                exact ⟨w, hc⟩
              tauto

lemma buildUpdatesAux_error (body : VerifyBody) (fs : List VField)
    (vu : List (String × JsVal)) (cu : CaseUpdates) (msg : String)
    (h : buildUpdatesAux body fs vu cu = .error msg) :
    ∃ f ∈ fs, ∃ v, bodyGet body f = some v ∧ checkField f v = .error msg := by
  induction fs generalizing vu cu with
  | nil => simp [buildUpdatesAux] at h
  | cons f fs ih =>
      cases hb : bodyGet body f with
      | none =>
          rw [buildUpdatesAux_skip body f fs vu cu hb] at h
          obtain ⟨f', hf', hv⟩ := ih _ _ h
          exact ⟨f', List.mem_cons_of_mem _ hf', hv⟩
      | some v =>
          cases hc : checkField f v with
          | error m =>
              rw [buildUpdatesAux_fail body f fs vu cu v m hb hc] at h
              cases h
              exact ⟨f, List.mem_cons_self .., v, hb, hc⟩
          | ok w =>
              rw [buildUpdatesAux_step body f fs vu cu v w hb hc] at h
              obtain ⟨f', hf', hv⟩ := ih _ _ h
              exact ⟨f', List.mem_cons_of_mem _ hf', hv⟩

lemma buildUpdatesAux_length (body : VerifyBody) (fs : List VField)
    (vu : List (String × JsVal)) (cu : CaseUpdates) (U : List (String × JsVal))
    (cu' : CaseUpdates) (h : buildUpdatesAux body fs vu cu = .ok (U, cu')) :
    U.length = vu.length + (fs.countP (fun f => (bodyGet body f).isSome)) := by
  induction fs generalizing vu cu with
  | nil =>
      rw [buildUpdatesAux] at h
      cases h
      simp
  | cons f fs ih =>
      cases hb : bodyGet body f with
      | none =>
          rw [buildUpdatesAux_skip body f fs vu cu hb] at h
          rw [ih _ _ h]
          simp [List.countP_cons, hb]
      | some v =>
          cases hc : checkField f v with
          | error m =>
              rw [buildUpdatesAux_fail body f fs vu cu v m hb hc] at h
              cases h
          | ok w =>
              rw [buildUpdatesAux_step body f fs vu cu v w hb hc] at h
              rw [ih _ _ h]
              simp [List.countP_cons, hb]
              omega

/-- Effect of the write list of an accepting run: the document gets the
merged verified-fields object and `isVerified = true`; the case is
updated exactly when the case-update record is nonempty. -/
lemma applyWrites_verifyWrites (st : St) (U : List (String × JsVal))
    (cu : CaseUpdates) :
    applyWrites st (verifyWrites st U cu) =
      { doc := { st.doc with
                  verifiedFields := some (.obj (mergeObj (existingVerified st.doc) U))
                  isVerified := true }
        cas := if cu.nonEmpty then applyCaseUpdates st.cas cu else st.cas } := by
  unfold verifyWrites applyWrites
  by_cases h : cu.nonEmpty <;> simp [h, applyWrite]

/-- Full characterization of an accepting `verifyDocument` run. -/
lemma verify_ok_iff (r : String) (st : St) (body : VerifyBody) (st' : St)
    (ws : List DbWrite) :
    verifyDocument r st body = .ok st' ws ↔
      (st.cas.userId = r ∧ ∃ U cu, buildUpdates body = .ok (U, cu) ∧ U ≠ [] ∧
        ws = verifyWrites st U cu ∧ st' = applyWrites st ws) := by
  unfold verifyDocument
  by_cases h : st.cas.userId = r
  · rw [if_neg (by simp [h])]
    cases hbu : buildUpdates body with
    | error msg =>
        dsimp only
        constructor
        · intro hcon; cases hcon
        · rintro ⟨-, U, cu, hok, -⟩
          cases hok
    | ok p =>
        obtain ⟨U, cu⟩ := p
        dsimp only
        by_cases hU : U = []
        · subst hU
          rw [if_pos (by simp)]
          constructor
          · intro hcon; cases hcon
          · rintro ⟨-, U', cu', hok, hne, -⟩
            cases hok
            exact absurd rfl hne
        · have hUb : U.isEmpty = false := by
            cases U with
            | nil => exact absurd rfl hU
            | cons a l => rfl
          rw [if_neg (by simp [hUb])]
          constructor
          · intro hok
            cases hok
            exact ⟨h, U, cu, rfl, hU, rfl, rfl⟩
          · rintro ⟨-, U', cu', hok, -, hws, hst⟩
            cases hok
            rw [hst, hws]
  · rw [if_pos (by simp [h])]
    constructor
    · intro hcon; cases hcon
    · rintro ⟨h', -⟩; exact absurd h' h

/-- A refusing `verifyDocument` run issues no persistence write. -/
lemma verify_err_writes (r : String) (st : St) (body : VerifyBody)
    (s : Nat) (m : String) (h : verifyDocument r st body = .err s m) :
    (verifyDocument r st body).writes = [] := by
  rw [h]
  rfl

/-- The refusing runs of `verifyDocument`, by cause: a foreign case, a
failing field validation (with the first failing message), or an
empty validated-update record. -/
lemma verify_err_cases (r : String) (st : St) (body : VerifyBody) :
    (st.cas.userId ≠ r → verifyDocument r st body = .err 403 "Forbidden")
    ∧ (∀ msg, st.cas.userId = r → buildUpdates body = .error msg →
        verifyDocument r st body = .err 400 msg)
    ∧ (∀ cu, st.cas.userId = r → buildUpdates body = .ok ([], cu) →
        verifyDocument r st body = .err 400 "No valid fields provided for verification") := by
  refine ⟨fun h => ?_, fun msg h hbu => ?_, fun cu h hbu => ?_⟩
  · unfold verifyDocument
    rw [if_pos (by simp [h])]
  · unfold verifyDocument
    rw [if_neg (by simp [h]), hbu]
  · unfold verifyDocument
    rw [if_neg (by simp [h]), hbu]
    rfl

/-- When the verified mapping has no non-null value for the key, the
read falls through to the parsed-fields resolution. -/
lemma resolveFieldValue_miss (key : String)
    (verified parsed : Option (List (String × JsVal)))
    (h : verifiedLookup verified key = none ∨ verifiedLookup verified key = some .null) :
    resolveFieldValue key verified parsed = resolveParsed key parsed := by
  cases verified with
  | none => rfl
  | some vf =>
      unfold resolveFieldValue
      dsimp only
      rcases h with h | h
      · have h' : lookupField vf key = none := h
        rw [h']
      · have h' : lookupField vf key = some .null := h
        rw [h']

/-- C4: the field-resolution read returns the verified value whenever
one is present and non-null; otherwise, an object-shaped parsed value
containing a `value` key is unwrapped to its inner value; otherwise the
(non-null, unwrapped-shape-free) parsed value itself is returned; and
the empty string is returned when the parsed value is absent.  In
particular a verified value always wins over a parsed value on reads. -/
theorem C4_resolveFieldValue_spec (key : String)
    (verified parsed : Option (List (String × JsVal))) :
    (∀ v, verifiedLookup verified key = some v → v ≠ .null →
        resolveFieldValue key verified parsed = v)
    ∧ ((verifiedLookup verified key = none ∨ verifiedLookup verified key = some .null) →
        (∀ pf l w, parsed = some pf → lookupField pf key = some (.obj l) →
            lookupField l "value" = some w →
            resolveFieldValue key verified parsed = w)
        ∧ (∀ pf v, parsed = some pf → lookupField pf key = some v →
            unwrapValue v = none → v ≠ .null →
            resolveFieldValue key verified parsed = v)
        ∧ ((parsed = none ∨ ∃ pf, parsed = some pf ∧ lookupField pf key = none) →
            resolveFieldValue key verified parsed = .str "")) := by
  constructor
  · intro v hv hnull
    cases verified with
    | none => cases hv
    | some vf =>
        have hv' : lookupField vf key = some v := hv
        unfold resolveFieldValue
        dsimp only
        rw [hv']
        cases v <;> first | rfl | exact absurd rfl hnull
  · intro hmiss
    rw [resolveFieldValue_miss key verified parsed hmiss]
    refine ⟨fun pf l w hpf hpk hval => ?_, fun pf v hpf hpk hun hnull => ?_,
      fun habs => ?_⟩
    · subst hpf
      unfold resolveParsed
      dsimp only
      rw [hpk]
      dsimp only
      rw [hval]
    · subst hpf
      unfold resolveParsed
      dsimp only
      rw [hpk]
      cases v with
      | null => exact absurd rfl hnull
      | obj l =>
          have hl : lookupField l "value" = none := hun
          dsimp only
          rw [hl]
      | str s => rfl
      | num n => rfl
      | bool b => rfl
    · rcases habs with rfl | ⟨pf, rfl, hpk⟩
      · rfl
      · unfold resolveParsed
        dsimp only
        rw [hpk]

/-- Witness for C4: at the spec example the verified value wins over
the wrapped parsed value. -/
theorem C4_witness :
    resolveFieldValue "diagnosis"
        (some [("diagnosis", .str "confirmed appendicitis")])
        (some [("diagnosis", .obj [("value", .str "appendicitis")])]) =
      .str "confirmed appendicitis" :=
  (C4_resolveFieldValue_spec "diagnosis"
      (some [("diagnosis", .str "confirmed appendicitis")])
      (some [("diagnosis", .obj [("value", .str "appendicitis")])])).1
    (.str "confirmed appendicitis") rfl (by intro h; cases h)

/-- C9: for a document owned by the authenticated requester, the read
endpoint answers with exactly the six projected columns id, ocrStatus,
rawText, parsedFields, verifiedFields and isVerified of the document. -/
theorem C9_getDocumentOcr_fields (requesterId : String) (st : St)
    (h : st.cas.userId = requesterId) :
    getDocumentOcr requesterId st =
      .ok { id := st.doc.id, ocrStatus := st.doc.ocrStatus,
            rawText := st.doc.rawText, parsedFields := st.doc.parsedFields,
            verifiedFields := st.doc.verifiedFields,
            isVerified := st.doc.isVerified } := by
  unfold getDocumentOcr
  rw [if_neg (by simp [h])]

/-- Witness for C9 at the sample state. -/
theorem C9_witness :
    getDocumentOcr "u1" sampleSt =
      .ok { id := "d1", ocrStatus := .COMPLETED, rawText := none,
            parsedFields := none, verifiedFields := none,
            isVerified := false } :=
  C9_getDocumentOcr_fields "u1" sampleSt rfl

/-- An empty-after-trim `patientAge` string coerces to the number 0. -/
lemma jsStringToNum_blank (s : String) (h : jsTrim s = []) :
    jsStringToNum s = .val 0 := by
  unfold jsStringToNum
  rw [h]

/-- `checkField` accepts a blank `patientAge` string as the integer 0. -/
lemma checkField_age_blank (s : String) (h : jsTrim s = []) :
    checkField .patientAge (.str s) = .ok (.num (.val 0)) := by
  have hn := jsStringToNum_blank s h
  unfold checkField
  dsimp only
  rw [hn]
  dsimp only
  rw [if_pos (by constructor <;> norm_num)]

/-- The update records built from a body that submits only `patientAge`
as a blank string. -/
lemma buildUpdates_blankAge (s : String) (h : jsTrim s = []) :
    buildUpdates { patientAge := some (.str s) } =
      .ok ([("patientAge", .num (.val 0))], { patientAge := some 0 }) := by
  have hc := checkField_age_blank s h
  unfold buildUpdates
  simp only [VField.all, buildUpdatesAux, bodyGet, hc, List.nil_append,
    setCaseField, VField.name]
  norm_num

/-- C10: a verification submitting `patientAge` as the empty string (or
any whitespace-only string) is accepted rather than rejected: the
string coerces to the number 0, which passes the nonnegative-integer
check, so both the verified-fields mapping and the case column receive
the age 0. -/
theorem C10_blankAge_accepted (s : String) (st : St) (r : String)
    (hts : jsTrim s = []) (hr : st.cas.userId = r) :
    ∃ st' ws,
      verifyDocument r st { patientAge := some (.str s) } = .ok st' ws ∧
      lookupField (existingVerified st'.doc) "patientAge" = some (.num (.val 0)) ∧
      st'.cas.patientAge = some 0 := by
  have hbu := buildUpdates_blankAge s hts
  have hok := (verify_ok_iff r st { patientAge := some (.str s) }
      (applyWrites st (verifyWrites st [("patientAge", .num (.val 0))]
        { patientAge := some 0 }))
      (verifyWrites st [("patientAge", .num (.val 0))] { patientAge := some 0 })).mpr
    ⟨hr, [("patientAge", .num (.val 0))], { patientAge := some 0 }, hbu,
      by simp, rfl, rfl⟩
  refine ⟨_, _, hok, ?_, ?_⟩
  · rw [applyWrites_verifyWrites]
    show lookupField
        (mergeObj (existingVerified st.doc) [("patientAge", .num (.val 0))])
        "patientAge" = some (.num (.val 0))
    rw [lookup_mergeObj]
    rfl
  · rw [applyWrites_verifyWrites]
    show (if CaseUpdates.nonEmpty { patientAge := some 0 } then
        applyCaseUpdates st.cas { patientAge := some 0 } else st.cas).patientAge =
      some 0
    rw [if_pos (by rfl)]
    rfl

/-- Witness for C10 at the empty string and the sample state. -/
theorem C10_witness :
    ∃ st' ws,
      verifyDocument "u1" sampleSt { patientAge := some (.str "") } = .ok st' ws ∧
      lookupField (existingVerified st'.doc) "patientAge" = some (.num (.val 0)) ∧
      st'.cas.patientAge = some 0 :=
  C10_blankAge_accepted "" sampleSt "u1" rfl rfl

/-- The case write never touches the ownership column. -/
lemma applyCaseUpdates_userId (c : Case) (u : CaseUpdates) :
    (applyCaseUpdates c u).userId = c.userId := rfl

/-- C1: an accepting verify run stores the shallow merge of the prior
verified-fields mapping V and the validated submission U: the new
mapping is exactly the merge object; every key of U maps to its value
from U; every key absent from U keeps its value from V; no key of V is
ever removed; and running the same submission again succeeds and leaves
the mapping unchanged key for key (idempotence). -/
theorem C1_verify_merge (r : String) (st : St) (body : VerifyBody)
    (U : List (String × JsVal)) (cu : CaseUpdates) (st' : St) (ws : List DbWrite)
    (hbu : buildUpdates body = .ok (U, cu))
    (h : verifyDocument r st body = .ok st' ws) :
    st'.doc.verifiedFields = some (.obj (mergeObj (existingVerified st.doc) U))
    ∧ (∀ k v, lookupField U k = some v →
        lookupField (existingVerified st'.doc) k = some v)
    ∧ (∀ k, lookupField U k = none →
        lookupField (existingVerified st'.doc) k =
          lookupField (existingVerified st.doc) k)
    ∧ (∀ k v, lookupField (existingVerified st.doc) k = some v →
        ∃ w, lookupField (existingVerified st'.doc) k = some w)
    ∧ (∃ st'' ws'', verifyDocument r st' body = .ok st'' ws'' ∧
        ∀ k, lookupField (existingVerified st''.doc) k =
          lookupField (existingVerified st'.doc) k) := by
  obtain ⟨huser, U', cu', hbu', hne, hws, hst⟩ := (verify_ok_iff r st body st' ws).mp h
  rw [hbu] at hbu'
  cases hbu'
  rw [hws] at hst
  rw [applyWrites_verifyWrites] at hst
  have hvf : st'.doc.verifiedFields =
      some (.obj (mergeObj (existingVerified st.doc) U)) := by
    rw [hst]
  have hev : existingVerified st'.doc = mergeObj (existingVerified st.doc) U := by
    rw [hst]
    rfl
  refine ⟨hvf, ?_, ?_, ?_, ?_⟩
  · intro k v hk
    rw [hev, lookup_mergeObj, hk]
  · intro k hk
    rw [hev, lookup_mergeObj, hk]
  · intro k v hk
    rw [hev, lookup_mergeObj]
    cases hU : lookupField U k with
    | some w => exact ⟨w, rfl⟩
    | none => exact ⟨v, by rw [hk]⟩
  · have huser' : st'.cas.userId = r := by
      rw [hst]
      by_cases hcu : cu.nonEmpty <;>
        simp [hcu, applyCaseUpdates_userId, huser]
    refine ⟨applyWrites st' (verifyWrites st' U cu), verifyWrites st' U cu,
      (verify_ok_iff r st' body _ _).mpr ⟨huser', U, cu, hbu, hne, rfl, rfl⟩, ?_⟩
    intro k
    have hev'' : existingVerified (applyWrites st' (verifyWrites st' U cu)).doc =
        mergeObj (existingVerified st'.doc) U := by
      rw [applyWrites_verifyWrites]
      rfl
    rw [hev'', lookup_mergeObj]
    cases hU : lookupField U k with
    | some w => rw [hev, lookup_mergeObj, hU]
    | none => rfl

/-- Witness for C1: verifying the diagnosis A on the sample state
stores the merged mapping with the diagnosis mapped to A. -/
theorem C1_witness :
    lookupField
      (existingVerified
        (applyWrites sampleSt
          (verifyWrites sampleSt [("diagnosis", .str "A")]
            { diagnosis := some "A" })).doc)
      "diagnosis" = some (.str "A") :=
  (C1_verify_merge "u1" sampleSt bodyDiagA [("diagnosis", .str "A")]
      { diagnosis := some "A" }
      (applyWrites sampleSt
        (verifyWrites sampleSt [("diagnosis", .str "A")] { diagnosis := some "A" }))
      (verifyWrites sampleSt [("diagnosis", .str "A")] { diagnosis := some "A" })
      rfl rfl).2.1
    "diagnosis" (.str "A") rfl

/-- Every 400 message of a failing field validation starts with the
name of the failing field. -/
lemma checkField_error_named (f : VField) (v : JsVal) (msg : String)
    (h : checkField f v = .error msg) :
    msg.toList.take (VField.name f).toList.length = (VField.name f).toList := by
  cases f <;> cases v <;>
    simp only [checkField] at h <;>
    (repeat' split at h) <;>
    (cases h <;> decide)

/-- C2: the verify operation performs its writes exactly when the
requester owns the case, at least one recognized field is present, and
every present recognized field passes its validation; a refusal
performs no write; and a validation failure is refused with status 400
and a message that starts with the name of a failing field. -/
theorem C2_verify_guard (r : String) (st : St) (body : VerifyBody) :
    ((∃ st' ws, verifyDocument r st body = .ok st' ws) ↔
      (st.cas.userId = r ∧ (∃ f v, bodyGet body f = some v) ∧
        (∀ f v, bodyGet body f = some v → ∃ w, checkField f v = .ok w)))
    ∧ (∀ s m, verifyDocument r st body = .err s m →
        (verifyDocument r st body).writes = [])
    ∧ (∀ msg, st.cas.userId = r → buildUpdates body = .error msg →
        verifyDocument r st body = .err 400 msg ∧
        ∃ f v, bodyGet body f = some v ∧ checkField f v = .error msg ∧
          msg.toList.take (VField.name f).toList.length = (VField.name f).toList) := by
  refine ⟨⟨?_, ?_⟩, ?_, ?_⟩
  · rintro ⟨st', ws, h⟩
    obtain ⟨huser, U, cu, hbu, hne, -, -⟩ := (verify_ok_iff r st body st' ws).mp h
    have hvalid := (buildUpdatesAux_ok_iff body VField.all [] {}).mp ⟨(U, cu), hbu⟩
    refine ⟨huser, ?_, fun f v hv => hvalid f (VField.mem_all f) v hv⟩
    by_contra hnone
    push_neg at hnone
    have hcnt : VField.all.countP (fun f => (bodyGet body f).isSome) = 0 := by
      rw [List.countP_eq_zero]
      intro f hf
      cases hb : bodyGet body f with
      | none => simp [hb]
      | some v => exact absurd hb (hnone f v)
    have hlen := buildUpdatesAux_length body VField.all [] {} U cu hbu
    rw [hcnt] at hlen
    exact hne (List.length_eq_zero.mp (by simpa using hlen))
  · rintro ⟨huser, ⟨f0, v0, hf0⟩, hvalid⟩
    obtain ⟨⟨U, cu⟩, hbu⟩ :=
      (buildUpdatesAux_ok_iff body VField.all [] {}).mpr
        (fun f _ v hv => hvalid f v hv)
    have hlen := buildUpdatesAux_length body VField.all [] {} U cu hbu
    have hpos : 0 < VField.all.countP (fun f => (bodyGet body f).isSome) :=
      List.countP_pos_iff.mpr ⟨f0, VField.mem_all f0, by simp [hf0]⟩
    have hne : U ≠ [] := by
      intro hU
      rw [hU] at hlen
      simp at hlen
      omega
    exact ⟨_, _, (verify_ok_iff r st body _ _).mpr ⟨huser, U, cu, hbu, hne, rfl, rfl⟩⟩
  · intro s m h
    exact verify_err_writes r st body s m h
  · intro msg huser hbu
    refine ⟨(verify_err_cases r st body).2.1 msg huser hbu, ?_⟩
    obtain ⟨f, -, v, hv, hc⟩ := buildUpdatesAux_error body VField.all [] {} msg hbu
    exact ⟨f, v, hv, hc, checkField_error_named f v msg hc⟩

/-- Witness for C2: the ownership, presence and validity conditions at
the sample state let the diagnosis submission through. -/
theorem C2_witness :
    ∃ st' ws, verifyDocument "u1" sampleSt bodyDiagA = .ok st' ws :=
  (C2_verify_guard "u1" sampleSt bodyDiagA).1.mpr
    ⟨rfl, ⟨.diagnosis, .str "A", rfl⟩, by
      intro f v hv
      cases f <;> simp [bodyGet, bodyDiagA] at hv
      cases hv
      exact ⟨.str "A", rfl⟩⟩

/-- C3: an accepting verify run issues the document update first and
the case update second, two separate writes; the case write is present
exactly when the case-update record is nonempty; and applying only the
document write already gives the merged verified-fields mapping and
isVerified true while leaving the case untouched, so a failing case
write rolls nothing back. -/
theorem C3_two_writes (r : String) (st : St) (body : VerifyBody)
    (st' : St) (ws : List DbWrite)
    (h : verifyDocument r st body = .ok st' ws) :
    ∃ U cu, buildUpdates body = .ok (U, cu) ∧
      ws = DbWrite.docUpdate st.doc.id
          (.obj (mergeObj (existingVerified st.doc) U)) true ::
        (if cu.nonEmpty then [DbWrite.caseUpdate st.cas.id cu] else []) ∧
      (applyWrites st (ws.take 1)).doc.verifiedFields =
        some (.obj (mergeObj (existingVerified st.doc) U)) ∧
      (applyWrites st (ws.take 1)).doc.isVerified = true ∧
      (applyWrites st (ws.take 1)).cas = st.cas := by
  obtain ⟨-, U, cu, hbu, -, hws, -⟩ := (verify_ok_iff r st body st' ws).mp h
  subst hws
  exact ⟨U, cu, hbu, rfl, rfl, rfl, rfl⟩

/-- Witness for C3 at the sample diagnosis run. -/
theorem C3_witness :
    ∃ U cu, buildUpdates bodyDiagA = .ok (U, cu) ∧
      sampleWs = DbWrite.docUpdate sampleSt.doc.id
          (.obj (mergeObj (existingVerified sampleSt.doc) U)) true ::
        (if cu.nonEmpty then [DbWrite.caseUpdate sampleSt.cas.id cu] else []) ∧
      (applyWrites sampleSt (sampleWs.take 1)).doc.verifiedFields =
        some (.obj (mergeObj (existingVerified sampleSt.doc) U)) ∧
      (applyWrites sampleSt (sampleWs.take 1)).doc.isVerified = true ∧
      (applyWrites sampleSt (sampleWs.take 1)).cas = sampleSt.cas :=
  C3_two_writes "u1" sampleSt bodyDiagA sampleSt' sampleWs rfl

/-- C5 counterexample: the API verify operation never reads ocrStatus:
on a still-PENDING document a valid submission is accepted and mutates
the document rather than being refused. -/
theorem C5_counterexample :
    pendingSt.doc.ocrStatus = .PENDING ∧
    pendingSt.doc.isVerified = false ∧
    ∃ st' ws, verifyDocument "u1" pendingSt bodyDiagA = .ok st' ws ∧
      st'.doc.isVerified = true :=
  ⟨rfl, rfl, _, _, rfl, rfl⟩

/-- C5 amended: the OCR-completion precondition is enforced by the
mobile client alone: its save handler refuses, before issuing any
request, whenever the document OCR status is not COMPLETED. -/
theorem C5_mobile_gate (form : ReviewForm) (h : form.ocrStatus ≠ .COMPLETED) :
    handleSave form = .blockedOcrPending := by
  unfold handleSave
  rw [if_pos h]

/-- Witness for C5 on a PENDING review form. -/
theorem C5_witness :
    handleSave { ocrStatus := .PENDING } = .blockedOcrPending :=
  C5_mobile_gate { ocrStatus := .PENDING } (by decide)

/-- An accepting verify run always sets isVerified true. -/
lemma verify_ok_isVerified (r : String) (st : St) (body : VerifyBody)
    (st' : St) (ws : List DbWrite) (h : verifyDocument r st body = .ok st' ws) :
    st'.doc.isVerified = true := by
  obtain ⟨-, U, cu, -, -, hws, hst⟩ := (verify_ok_iff r st body st' ws).mp h
  rw [hws] at hst
  rw [hst, applyWrites_verifyWrites]

/-- No lifecycle operation resets isVerified. -/
lemma applyDocOp_isVerified_mono (d : Document) (op : DocOp)
    (hd : d.isVerified = true) : (applyDocOp d op).isVerified = true := by
  cases op with
  | ocr call => cases call <;> simpa [applyDocOp, requestOcrAnalysis] using hd
  | verify r cas body =>
      unfold applyDocOp
      dsimp only
      cases hv : verifyDocument r { doc := d, cas := cas } body with
      | ok st' ws => exact verify_ok_isVerified r _ body st' ws hv
      | err s m => exact hd

/-- C7: isVerified starts false on a fresh document, an accepting
verify run sets it true, and no lifecycle operation resets it, so once
true it remains true along every operation sequence. -/
theorem C7_isVerified_monotonic :
    (∀ i c, (freshDocument i c).isVerified = false)
    ∧ (∀ r st body st' ws, verifyDocument r st body = .ok st' ws →
        st'.doc.isVerified = true)
    ∧ (∀ d op, d.isVerified = true → (applyDocOp d op).isVerified = true)
    ∧ (∀ d ops, d.isVerified = true →
        ∀ d' ∈ List.scanl applyDocOp d ops, d'.isVerified = true) := by
  refine ⟨fun i c => rfl, verify_ok_isVerified, applyDocOp_isVerified_mono, ?_⟩
  intro d ops
  induction ops generalizing d with
  | nil =>
      intro hd d' hd'
      simp only [List.scanl] at hd'
      rcases List.mem_singleton.mp hd' with rfl
      exact hd
  | cons op ops ih =>
      intro hd d' hd'
      rw [List.scanl_cons] at hd'
      rcases List.mem_cons.mp hd' with rfl | hmem
      · exact hd
      · exact ih (applyDocOp d op) (applyDocOp_isVerified_mono d op hd) d' hmem

/-- Witness for C7: isVerified is true after the sample diagnosis run. -/
theorem C7_witness : sampleSt'.doc.isVerified = true :=
  C7_isVerified_monotonic.2.1 "u1" sampleSt bodyDiagA sampleSt' sampleWs rfl

/-- A verify call never touches ocrStatus. -/
lemma applyDocOp_verify_status (d : Document) (r : String) (cas : Case)
    (body : VerifyBody) :
    (applyDocOp d (.verify r cas body)).ocrStatus = d.ocrStatus := by
  unfold applyDocOp
  dsimp only
  cases hv : verifyDocument r { doc := d, cas := cas } body with
  | err s m => rfl
  | ok st' ws =>
      obtain ⟨-, U, cu, -, -, hws, hst⟩ := (verify_ok_iff r _ body st' ws).mp hv
      rw [hws] at hst
      rw [hst, applyWrites_verifyWrites]

/-- The single OCR attempt resolves the status to COMPLETED or FAILED. -/
lemma requestOcrAnalysis_status (d : Document) (call : OcrCallResult) :
    (requestOcrAnalysis d call).ocrStatus = .COMPLETED ∨
    (requestOcrAnalysis d call).ocrStatus = .FAILED := by
  cases call <;> simp [requestOcrAnalysis]

lemma statusTrace_cons (d : Document) (op : DocOp) (ops : List DocOp) :
    statusTrace d (op :: ops) =
      d.ocrStatus :: statusTrace (applyDocOp d op) ops := rfl

lemma statusTrace_head (d : Document) (ops : List DocOp) :
    ∃ t, statusTrace d ops = d.ocrStatus :: t := by
  cases ops <;> exact ⟨_, rfl⟩

/-- With no OCR attempt in the operations, the status never moves. -/
lemma statusTrace_const (d : Document) (ops : List DocOp)
    (h : countOcr ops = 0) : ∀ x ∈ statusTrace d ops, x = d.ocrStatus := by
  induction ops generalizing d with
  | nil =>
      intro x hx
      rcases List.mem_singleton.mp hx with rfl
      rfl
  | cons op ops ih =>
      intro x hx
      cases op with
      | ocr call => simp [countOcr, List.countP_cons] at h
      | verify r cas body =>
          have hc : countOcr ops = 0 := by
            simpa [countOcr, List.countP_cons] using h
          rw [statusTrace_cons] at hx
          rcases List.mem_cons.mp hx with rfl | hmem
          · rfl
          · rw [ih _ hc x hmem, applyDocOp_verify_status]

/-- With no OCR attempt, all adjacent steps are (trivially) allowed. -/
lemma stepsOk_const (d : Document) (ops : List DocOp)
    (h : countOcr ops = 0) : stepsOk (statusTrace d ops) := by
  induction ops generalizing d with
  | nil => exact trivial
  | cons op ops ih =>
      cases op with
      | ocr call => simp [countOcr, List.countP_cons] at h
      | verify r cas body =>
          have hc : countOcr ops = 0 := by
            simpa [countOcr, List.countP_cons] using h
          obtain ⟨t, ht⟩ := statusTrace_head (applyDocOp d (.verify r cas body)) ops
          rw [statusTrace_cons, ht]
          refine ⟨Or.inl ?_, ?_⟩
          · exact applyDocOp_verify_status d r cas body
          · rw [← ht]
            exact ih _ hc

/-- With no OCR attempt, a folded run keeps the status. -/
lemma foldl_status_const (d : Document) (ops : List DocOp)
    (h : countOcr ops = 0) :
    (List.foldl applyDocOp d ops).ocrStatus = d.ocrStatus := by
  induction ops generalizing d with
  | nil => rfl
  | cons op ops ih =>
      cases op with
      | ocr call => simp [countOcr, List.countP_cons] at h
      | verify r cas body =>
          have hc : countOcr ops = 0 := by
            simpa [countOcr, List.countP_cons] using h
          rw [List.foldl_cons, ih _ hc, applyDocOp_verify_status]

/-- C6: along any operation sequence of a document lifecycle — at most
one OCR attempt (the upload handler is the only caller of the OCR
client and requests one analysis for the freshly created PENDING
document; the client itself never retries), any number of verify calls
— every adjacent status step is either unchanged or PENDING resolving
to COMPLETED or FAILED, and from any point where the status is no
longer PENDING it never changes again. -/
theorem C6_ocrStatus_transitions (d : Document) (ops : List DocOp)
    (hp : d.ocrStatus = .PENDING) (hc : countOcr ops ≤ 1) :
    stepsOk (statusTrace d ops)
    ∧ (∀ pre suf, ops = pre ++ suf →
        (List.foldl applyDocOp d pre).ocrStatus ≠ .PENDING →
        ∀ x ∈ statusTrace (List.foldl applyDocOp d pre) suf,
          x = (List.foldl applyDocOp d pre).ocrStatus) := by
  constructor
  · induction ops generalizing d with
    | nil => exact trivial
    | cons op ops ih =>
        cases op with
        | verify r cas body =>
            have hc' : countOcr ops ≤ 1 := by
              simpa [countOcr, List.countP_cons] using hc
            have hp' : (applyDocOp d (.verify r cas body)).ocrStatus = .PENDING := by
              rw [applyDocOp_verify_status, hp]
            obtain ⟨t, ht⟩ := statusTrace_head (applyDocOp d (.verify r cas body)) ops
            rw [statusTrace_cons, ht]
            refine ⟨Or.inl ?_, ?_⟩
            · rw [applyDocOp_verify_status, hp]
            · rw [← ht]
              exact ih _ hp' hc'
        | ocr call =>
            have hc' : countOcr ops = 0 := by
              have h2 : countOcr (DocOp.ocr call :: ops) = countOcr ops + 1 := by
                simp [countOcr, List.countP_cons]
              omega
            obtain ⟨t, ht⟩ := statusTrace_head (applyDocOp d (.ocr call)) ops
            rw [statusTrace_cons, ht]
            refine ⟨Or.inr ⟨hp, ?_⟩, ?_⟩
            · exact requestOcrAnalysis_status d call
            · rw [← ht]
              exact stepsOk_const _ _ hc'
  · intro pre suf heq hne x hx
    have hcnt : countOcr pre + countOcr suf ≤ 1 := by
      have : countOcr (pre ++ suf) ≤ 1 := heq ▸ hc
      simpa [countOcr, List.countP_append] using this
    have hpre : countOcr pre ≠ 0 := by
      intro h0
      exact hne (by rw [foldl_status_const d pre h0, hp])
    have hsuf : countOcr suf = 0 := by omega
    exact statusTrace_const _ suf hsuf x hx

/-- Witness for C6: a fresh PENDING document, one successful OCR
attempt, then a verify call. -/
theorem C6_witness :
    stepsOk (statusTrace (freshDocument "d1" "c1")
      [DocOp.ocr (.success {}), DocOp.verify "u1" sampleCase bodyDiagA]) :=
  (C6_ocrStatus_transitions (freshDocument "d1" "c1")
      [DocOp.ocr (.success {}), DocOp.verify "u1" sampleCase bodyDiagA]
      rfl (by decide)).1

/-- C8 counterexample: after a successful worker call whose response
body omits every field, the rawText column has been overwritten with
null instead of being left untouched. -/
theorem C8_counterexample :
    ({ sampleDoc with rawText := some "old text" } : Document).rawText =
      some "old text"
    ∧ (requestOcrAnalysis { sampleDoc with rawText := some "old text" }
        (.success {})).rawText = none :=
  ⟨rfl, rfl⟩

/-- C8 amended: on a successful worker call the status becomes
COMPLETED; rawText and schemaType are always written, receiving the
response value or null when the field is absent or null; parsedFields
and ocrMeta are left untouched when absent from the response, receive
an explicit JSON null when present as null, and the sent mapping when
present; the verification columns are untouched. -/
theorem C8_ocr_success_update (d : Document) (resp : OcrWorkerResponse) :
    (requestOcrAnalysis d (.success resp)).ocrStatus = .COMPLETED
    ∧ (requestOcrAnalysis d (.success resp)).rawText = resp.rawText.join
    ∧ (requestOcrAnalysis d (.success resp)).schemaType = resp.schemaType.join
    ∧ (resp.parsedFields = none →
        (requestOcrAnalysis d (.success resp)).parsedFields = d.parsedFields)
    ∧ (resp.parsedFields = some none →
        (requestOcrAnalysis d (.success resp)).parsedFields = some .null)
    ∧ (∀ l, resp.parsedFields = some (some l) →
        (requestOcrAnalysis d (.success resp)).parsedFields = some (.obj l))
    ∧ (resp.ocrMeta = none →
        (requestOcrAnalysis d (.success resp)).ocrMeta = d.ocrMeta)
    ∧ (resp.ocrMeta = some none →
        (requestOcrAnalysis d (.success resp)).ocrMeta = some .null)
    ∧ (∀ l, resp.ocrMeta = some (some l) →
        (requestOcrAnalysis d (.success resp)).ocrMeta = some (.obj l))
    ∧ (requestOcrAnalysis d (.success resp)).verifiedFields = d.verifiedFields
    ∧ (requestOcrAnalysis d (.success resp)).isVerified = d.isVerified := by
  refine ⟨rfl, rfl, rfl, fun h => ?_, fun h => ?_, fun l h => ?_,
    fun h => ?_, fun h => ?_, fun l h => ?_, rfl, rfl⟩ <;>
    simp [requestOcrAnalysis, h]

/-- Witness for C8: a response without parsedFields leaves that column
unchanged. -/
theorem C8_witness :
    (requestOcrAnalysis sampleDoc (.success {})).parsedFields =
      sampleDoc.parsedFields :=
  (C8_ocr_success_update sampleDoc {}).2.2.2.1 rfl

end PaperSnap
